import Mathlib

/-!
Shallow embedding of the rule-matching and path-resolution engine of
File_Organizer_Bot (src/organizer.py, class FileOrganizer), together with
proofs about its behaviour.

Modelling conventions:
  - machine state (the directory tree) is a record of existing directory
    paths and existing file paths, threaded explicitly;
  - the wall clock is passed in: `ts` is the string produced by
    strftime of "%Y%m%d_%H%M%S" at datetime.now(), and each file carries
    its stat result as an optional record (None models an OSError from
    stat, as raised by Path.stat);
  - OSError escaping a function is modelled by Except Unit;
  - side effects that the code logs are recorded as an event trace.
-/

namespace FileOrganizer

/-- Result of a successful stat of a file: the age in whole days
(the Python expression (now - mod_time).days) and the zero-padded
strftime components used by subfolder patterns. -/
structure Mtime where
  daysAgo : Int
  yyyy : String
  mm : String
  dd : String
  hh : String
  mi : String
deriving DecidableEq, Repr

/-- Snapshot of one directory entry as seen by process_file. -/
structure FileInfo where
  name : String
  isDir : Bool
  canOpenAppend : Bool
  mtime : Option Mtime
deriving DecidableEq, Repr

/-- One condition of a rule (a dict in config rules[i].conditions). -/
structure Condition where
  extension : List String
  filename_contains : List String
  destination : String
  subfolder_pat : Option String
deriving DecidableEq, Repr

/-- One rule of the config (the name key is diagnostic only and omitted). -/
structure Rule where
  conditions : List Condition
deriving DecidableEq, Repr

/-- The date_groups config dict; absent keys fall back to defaults. -/
structure DateGroups where
  last_week : Option Int
  last_month : Option Int
deriving DecidableEq, Repr

/-- The loaded config dict, restricted to the keys the engine reads. -/
structure Config where
  target_directory : String
  rules : List Rule
  date_groups : Option DateGroups
  conflict_resolution : Option String
  dry_run : Option Bool
deriving DecidableEq, Repr

/-- The filesystem as the engine observes and mutates it. -/
structure FS where
  dirs : List String
  files : List String
deriving DecidableEq, Repr

/-- Observable effects of one run, in order of occurrence. checked ri ci
records that condition ci of rule ri was evaluated against the file. -/
inductive Event where
  | checked (ri ci : Nat)
  | mkdirE (p : String)
  | dryRunE (src dst : String)
  | movedE (src dst : String)
  | moveErrE (src : String)
deriving DecidableEq, Repr

/-! ## String helpers mirroring Python str and pathlib operations -/

/-- Lowercase a string, as Python str.lower on ASCII names. -/
def strLower (s : String) : String := String.mk (s.toList.map Char.toLower)

/-- Uppercase a string, as Python str.upper on ASCII names. -/
def strUpper (s : String) : String := String.mk (s.toList.map Char.toUpper)

/-- Python str.startswith. -/
def pyStartsWith (s pre : String) : Bool := pre.toList.isPrefixOf s.toList

/-- Replace the leftmost non-overlapping occurrences of pat, scanning left
to right and never rescanning a replacement; fuel bounds the recursion by
the length of the scanned list. -/
def replaceAux (rep pat : List Char) : Nat → List Char → List Char
  | 0, s => s
  | _ + 1, [] => []
  | fuel + 1, c :: rest =>
    if pat.isPrefixOf (c :: rest) then
      rep ++ replaceAux rep pat fuel ((c :: rest).drop pat.length)
    else c :: replaceAux rep pat fuel rest

/-- Python str.replace for a non-empty pattern (every call site passes a
fixed non-empty literal); an empty pattern leaves the string unchanged. -/
def strReplace (s pat rep : String) : String :=
  if pat.toList.isEmpty then s
  else String.mk (replaceAux rep.toList pat.toList s.toList.length s.toList)

/-- Python s[1:]. -/
def strTail (s : String) : String := String.mk (s.toList.drop 1)

/-- Index of the last dot of the list, if any. -/
def lastDotAux : List Char → Nat → Option Nat → Option Nat
  | [], _, acc => acc
  | c :: rest, i, acc => lastDotAux rest (i + 1) (if c = '.' then some i else acc)

/-- pathlib PurePath.suffix of a file name: the final extension with its
leading dot, empty when the name has no extension (a leading dot or a
trailing dot does not count). -/
def pySuffix (name : String) : String :=
  let l := name.toList
  match lastDotAux l 0 none with
  | none => ""
  | some i => if 0 < i ∧ i + 1 < l.length then String.mk (l.drop i) else ""

/-- pathlib PurePath.stem of a file name: the name without pySuffix. -/
def pyStem (name : String) : String :=
  let l := name.toList
  match lastDotAux l 0 none with
  | none => name
  | some i => if 0 < i ∧ i + 1 < l.length then String.mk (l.take i) else name

/-- Python stem.split(chr(95))[0]: the part before the first underscore. -/
def beforeUnderscore (s : String) : String :=
  String.mk (s.toList.takeWhile (fun c => c ≠ '_'))

/-- Decides the Python substring test p in s on character lists. -/
def listInfixB (p : List Char) : List Char → Bool
  | [] => p.isEmpty
  | c :: rest => p.isPrefixOf (c :: rest) || listInfixB p rest

/-! ## The engine, translated from src/organizer.py -/

/-- Effective last_week threshold: config date_groups get with default 7. -/
def effLastWeek (cfg : Config) : Int :=
  match cfg.date_groups with
  | none => 7
  | some dg => dg.last_week.getD 7

/-- Effective last_month threshold: config date_groups get with default 30. -/
def effLastMonth (cfg : Config) : Int :=
  match cfg.date_groups with
  | none => 30
  | some dg => dg.last_month.getD 30

/-- FileOrganizer.get_date_group: bucket a file by modification age; a
failed stat (m = none) is caught and yields Unknown. -/
def get_date_group (cfg : Config) (m : Option Mtime) : String :=
  match m with
  | none => "Unknown"
  | some mt =>
    if mt.daysAgo ≤ effLastWeek cfg then "Last_Week"
    else if mt.daysAgo ≤ effLastMonth cfg then "Last_Month"
    else "Older"

/-- FileOrganizer.should_process_file: directories, dotfiles, tilde-dollar
lock markers and files that cannot be opened for append are excluded. -/
def should_process_file (f : FileInfo) : Bool :=
  if f.isDir || pyStartsWith f.name "." || pyStartsWith f.name "~$" then false
  else f.canOpenAppend

/-- FileOrganizer.resolve_conflict: decide the actual destination for a
desired destination dirPath/name, given whether that path exists; ts is
strftime of "%Y%m%d_%H%M%S" at datetime.now(). -/
def resolve_conflict (resolution : Option String) (destExists : Bool)
    (dirPath name ts : String) : Option String :=
  let res := resolution.getD "rename"
  if destExists = false then some (dirPath ++ "/" ++ name)
  else if res = "skip" then none
  else if res = "overwrite" then some (dirPath ++ "/" ++ name)
  else if res = "rename" then
    some (dirPath ++ "/" ++ pyStem name ++ "_" ++ ts ++ pySuffix name)
  else none

/-- FileOrganizer.create_subfolder_path: expand the date tokens of a
subfolder pattern from the stat of the file. The stat call sits outside
any try block, so a failed stat (m = none) escapes as an error. -/
def create_subfolder_path (pat : Option String) (m : Option Mtime) :
    Except Unit String :=
  match pat with
  | none => .ok ""
  | some p =>
    if p = "" then .ok ""
    else
      match m with
      | none => .error ()
      | some mt =>
        .ok (strReplace (strReplace (strReplace (strReplace (strReplace
          p "YYYY" mt.yyyy) "MM" mt.mm) "DD" mt.dd) "HH" mt.hh) "MI" mt.mi)

/-- The condition match test of FileOrganizer.process_file lines 136-150. -/
def condMatches (f : FileInfo) (c : Condition) : Bool :=
  (c.extension.contains "*" ||
    (c.extension.map strLower).contains (strLower (pySuffix f.name))) &&
  (c.filename_contains.isEmpty ||
    c.filename_contains.any
      (fun p => listInfixB (strLower p).toList (strLower f.name).toList))

/-- The placeholder substitution of process_file lines 153-162. -/
def expandDest (cfg : Config) (f : FileInfo) (dest : String) : String :=
  strReplace (strReplace (strReplace dest "\x7bextension_group\x7d"
      (strUpper (strTail (pySuffix f.name))))
    "\x7bdate_group\x7d" (get_date_group cfg f.mtime))
    "\x7bfilename_prefix\x7d" (beforeUnderscore (pyStem f.name))

/-- The destination directory computed for a matched condition, relative
to the target directory (lines 151-169); propagates a stat error of
create_subfolder_path. -/
def destDirOf (cfg : Config) (f : FileInfo) (c : Condition) :
    Except Unit String :=
  match create_subfolder_path c.subfolder_pat f.mtime with
  | .error e => .error e
  | .ok sub =>
    let d0 := expandDest cfg f c.destination
    .ok (if sub = "" then d0 else d0 ++ "/" ++ sub)

/-- The absolute destination directory (line 172). -/
def fullDestOf (cfg : Config) (f : FileInfo) (c : Condition) :
    Except Unit String :=
  match destDirOf cfg f c with
  | .error e => .error e
  | .ok d => .ok (cfg.target_directory ++ "/" ++ d)

/-- Path of a directory entry of the target directory. -/
def filePath (cfg : Config) (f : FileInfo) : String :=
  cfg.target_directory ++ "/" ++ f.name

/-- Whether a path exists (Path.exists: as a file or as a directory). -/
def fsExists (fs : FS) (p : String) : Bool :=
  fs.files.contains p || fs.dirs.contains p

/-- Path.mkdir with parents and exist_ok: record the directory. -/
def mkdirFS (fs : FS) (d : String) : FS :=
  { fs with dirs := if fs.dirs.contains d then fs.dirs else d :: fs.dirs }

/-- shutil.move of an existing source onto dst (replacing dst if present). -/
def moveFS (fs : FS) (src dst : String) : FS :=
  { fs with files := dst :: ((fs.files.erase src).erase dst) }

/-- The body of the condition loop of process_file for one condition at
position (ri, ci): returns (actionDone, new filesystem, events). A result
of actionDone = true corresponds to the break of line 194; actionDone =
false covers a non-matching condition and both continue paths (conflict
skip, move error). A stat error of create_subfolder_path escapes. -/
def tryCondition (cfg : Config) (ts : String) (f : FileInfo) (dry : Bool)
    (fs : FS) (ri ci : Nat) (c : Condition) :
    Except Unit (Bool × FS × List Event) :=
  if condMatches f c = false then .ok (false, fs, [.checked ri ci])
  else
    match fullDestOf cfg f c with
    | .error e => .error e
    | .ok fullDest =>
      let fs1 := mkdirFS fs fullDest
      let destFile := fullDest ++ "/" ++ f.name
      match resolve_conflict cfg.conflict_resolution (fsExists fs1 destFile)
          fullDest f.name ts with
      | none => .ok (false, fs1, [.checked ri ci, .mkdirE fullDest])
      | some target =>
        if dry then
          .ok (true, fs1,
            [.checked ri ci, .mkdirE fullDest, .dryRunE (filePath cfg f) target])
        else if fs1.files.contains (filePath cfg f) then
          .ok (true, moveFS fs1 (filePath cfg f) target,
            [.checked ri ci, .mkdirE fullDest, .movedE (filePath cfg f) target])
        else
          .ok (false, fs1,
            [.checked ri ci, .mkdirE fullDest, .moveErrE (filePath cfg f)])

/-- The inner condition loop of process_file over one rule: stops at the
first condition whose action completes (the break of line 194). -/
def runConds (cfg : Config) (ts : String) (f : FileInfo) (dry : Bool) :
    FS → Nat → Nat → List Condition → Except Unit (Bool × FS × List Event)
  | fs, _, _, [] => .ok (false, fs, [])
  | fs, ri, ci, c :: rest =>
    match tryCondition cfg ts f dry fs ri ci c with
    | .error e => .error e
    | .ok (true, fs1, ev1) => .ok (true, fs1, ev1)
    | .ok (false, fs1, ev1) =>
      match runConds cfg ts f dry fs1 ri (ci + 1) rest with
      | .error e => .error e
      | .ok (d2, fs2, ev2) => .ok (d2, fs2, ev1 ++ ev2)

/-- The outer rule loop of process_file: every rule is visited; the
processed flag accumulates across rules. -/
def runRules (cfg : Config) (ts : String) (f : FileInfo) (dry : Bool) :
    FS → Nat → List Rule → Except Unit (Bool × FS × List Event)
  | fs, _, [] => .ok (false, fs, [])
  | fs, ri, r :: rest =>
    match runConds cfg ts f dry fs ri 0 r.conditions with
    | .error e => .error e
    | .ok (d1, fs1, ev1) =>
      match runRules cfg ts f dry fs1 (ri + 1) rest with
      | .error e => .error e
      | .ok (d2, fs2, ev2) => .ok (d1 || d2, fs2, ev1 ++ ev2)

/-- FileOrganizer.process_file: returns whether the file counts as
processed, with the filesystem after the call and the event trace. -/
def process_file (cfg : Config) (ts : String) (f : FileInfo) (dry : Bool)
    (fs : FS) : Except Unit (Bool × FS × List Event) :=
  if should_process_file f = false then .ok (false, fs, [])
  else runRules cfg ts f dry fs 0 cfg.rules

/-- The per-entry loop of FileOrganizer.organize_files, returning the
processed and skipped counters. -/
def runFiles (cfg : Config) (ts : String) (dry : Bool) :
    FS → List FileInfo → Except Unit (Nat × Nat × FS × List Event)
  | fs, [] => .ok (0, 0, fs, [])
  | fs, f :: rest =>
    match process_file cfg ts f dry fs with
    | .error e => .error e
    | .ok (d, fs1, ev1) =>
      match runFiles cfg ts dry fs1 rest with
      | .error e => .error e
      | .ok (p, s, fs2, ev2) =>
        .ok ((if d then p + 1 else p), (if d then s else s + 1), fs2, ev1 ++ ev2)

/-- FileOrganizer.organize_files: resolves the dry_run default, returns
none when the target directory does not exist, and otherwise runs every
entry of the snapshot. -/
def organize_files (cfg : Config) (ts : String) (dryArg : Option Bool)
    (fs : FS) (entries : List FileInfo) :
    Except Unit (Option (Nat × Nat × FS × List Event)) :=
  let dry := dryArg.getD (cfg.dry_run.getD false)
  if fsExists fs cfg.target_directory = false then .ok none
  else
    match runFiles cfg ts dry fs entries with
    | .error e => .error e
    | .ok r => .ok (some r)

/-! ## Concrete instances used by examples, witnesses and counterexamples -/

/-- A stat result aged d whole days. -/
def mtAge (d : Int) : Mtime := ⟨d, "2026", "10", "09", "12", "00"⟩

/-- A config with explicit date thresholds 7 and 30 and no rules. -/
def cfgT730 : Config := ⟨"t", [], some ⟨some 7, some 30⟩, none, none⟩

/-- An ordinary text file entry. -/
def fTxt : FileInfo := ⟨"a.txt", false, true, some (mtAge 3)⟩

/-- A subdirectory entry. -/
def fSub : FileInfo := ⟨"sub", true, true, none⟩

/-- A catch-all condition sending files to One. -/
def cOne : Condition := ⟨["*"], [], "One", none⟩

/-- A catch-all condition sending files to Two. -/
def cTwo : Condition := ⟨["*"], [], "Two", none⟩

/-- A target tree holding only the target root and one file. -/
def fsT : FS := ⟨["t"], ["t/a.txt"]⟩

/-! ## Helper lemmas -/

/-- listInfixB decides the contiguous-sublist relation. -/
theorem listInfixB_iff (p : List Char) :
    ∀ s : List Char, listInfixB p s = true ↔ p <:+: s := by
  intro s
  induction s with
  | nil => simp [listInfixB]
  | cons c rest ih =>
    simp [listInfixB, Bool.or_eq_true, List.isPrefixOf_iff_prefix, ih,
      List.infix_cons_iff]

/-- A config with two single-condition catch-all rules. -/
def cfgTwo : Config := ⟨"t", [⟨[cOne]⟩, ⟨[cTwo]⟩], none, none, none⟩

/-- A skip-policy config with one rule holding two catch-all conditions. -/
def cfgSkip : Config := ⟨"t", [⟨[cOne, cTwo]⟩], none, some "skip", none⟩

/-- A tree where the destination of cOne for a.txt already exists. -/
def fsSkipPre : FS := ⟨["t"], ["t/a.txt", "t/One/a.txt"]⟩

/-- A config whose single catch-all condition has a subfolder pattern. -/
def cfgSub : Config := ⟨"t", [⟨[⟨["*"], [], "Docs", some "YYYY"⟩]⟩], none, none, none⟩

/-- A file whose stat fails (modification time unreadable). -/
def fNoStat : FileInfo := ⟨"b.txt", false, true, none⟩

/-- True when the trace holds no move and no move error. -/
def moveFree (ev : List Event) : Bool :=
  ev.all fun e =>
    match e with
    | .movedE _ _ => false
    | .moveErrE _ => false
    | _ => true

/-- One dry-mode condition step never moves a file and never fails a move. -/
theorem tryCondition_dry_invariant (cfg : Config) (ts : String) (f : FileInfo)
    (fs : FS) (ri ci : Nat) (c : Condition) (b : Bool) (fs' : FS)
    (ev : List Event)
    (h : tryCondition cfg ts f true fs ri ci c = .ok (b, fs', ev)) :
    fs'.files = fs.files ∧ moveFree ev = true := by
  simp only [tryCondition] at h
  by_cases hm : condMatches f c = false
  · rw [if_pos hm] at h
    simp at h
    obtain ⟨h1, h2, h3⟩ := h
    subst_vars
    exact ⟨rfl, rfl⟩
  · rw [if_neg hm] at h
    cases hfd : fullDestOf cfg f c with
    | error e => rw [hfd] at h; simp at h
    | ok fd =>
      rw [hfd] at h
      simp only [] at h
      cases hr : resolve_conflict cfg.conflict_resolution
          (fsExists (mkdirFS fs fd) (fd ++ "/" ++ f.name)) fd f.name ts with
      | none =>
        rw [hr] at h
        simp at h
        obtain ⟨h1, h2, h3⟩ := h
        subst_vars
        exact ⟨rfl, rfl⟩
      | some target =>
        rw [hr] at h
        simp at h
        obtain ⟨h1, h2, h3⟩ := h
        subst_vars
        exact ⟨rfl, rfl⟩

/-- The dry-mode condition loop never moves a file. -/
theorem runConds_dry_invariant (cfg : Config) (ts : String) (f : FileInfo) :
    ∀ (conds : List Condition) (fs : FS) (ri ci : Nat) (b : Bool) (fs' : FS)
      (ev : List Event),
      runConds cfg ts f true fs ri ci conds = .ok (b, fs', ev) →
      fs'.files = fs.files ∧ moveFree ev = true := by
  intro conds
  induction conds with
  | nil =>
    intro fs ri ci b fs' ev h
    simp only [runConds, Except.ok.injEq, Prod.mk.injEq] at h
    obtain ⟨-, h2, h3⟩ := h
    subst h2; subst h3
    exact ⟨rfl, rfl⟩
  | cons c rest ih =>
    intro fs ri ci b fs' ev h
    simp only [runConds] at h
    cases htc : tryCondition cfg ts f true fs ri ci c with
    | error e => rw [htc] at h; simp at h
    | ok x =>
      obtain ⟨d, fs1, ev1⟩ := x
      rw [htc] at h
      obtain ⟨hf1, hm1⟩ :=
        tryCondition_dry_invariant cfg ts f fs ri ci c d fs1 ev1 htc
      cases d with
      | true =>
        simp at h
        obtain ⟨h1, h2, h3⟩ := h
        subst_vars
        exact ⟨hf1, hm1⟩
      | false =>
        simp only [] at h
        cases hrc : runConds cfg ts f true fs1 ri (ci + 1) rest with
        | error e => rw [hrc] at h; simp at h
        | ok y =>
          obtain ⟨d2, fs2, ev2⟩ := y
          rw [hrc] at h
          obtain ⟨hf2, hm2⟩ := ih fs1 ri (ci + 1) d2 fs2 ev2 hrc
          simp at h
          obtain ⟨h1, h2, h3⟩ := h
          subst_vars
          refine ⟨hf2.trans hf1, ?_⟩
          simpa [moveFree, List.all_append] using And.intro hm1 hm2

/-- The dry-mode rule loop never moves a file. -/
theorem runRules_dry_invariant (cfg : Config) (ts : String) (f : FileInfo) :
    ∀ (rules : List Rule) (fs : FS) (ri : Nat) (b : Bool) (fs' : FS)
      (ev : List Event),
      runRules cfg ts f true fs ri rules = .ok (b, fs', ev) →
      fs'.files = fs.files ∧ moveFree ev = true := by
  intro rules
  induction rules with
  | nil =>
    intro fs ri b fs' ev h
    simp only [runRules, Except.ok.injEq, Prod.mk.injEq] at h
    obtain ⟨-, h2, h3⟩ := h
    subst h2; subst h3
    exact ⟨rfl, rfl⟩
  | cons r rest ih =>
    intro fs ri b fs' ev h
    simp only [runRules] at h
    cases hrc : runConds cfg ts f true fs ri 0 r.conditions with
    | error e => rw [hrc] at h; simp at h
    | ok x =>
      obtain ⟨d1, fs1, ev1⟩ := x
      rw [hrc] at h
      simp only [] at h
      obtain ⟨hf1, hm1⟩ :=
        runConds_dry_invariant cfg ts f r.conditions fs ri 0 d1 fs1 ev1 hrc
      cases hrr : runRules cfg ts f true fs1 (ri + 1) rest with
      | error e => rw [hrr] at h; simp at h
      | ok y =>
        obtain ⟨d2, fs2, ev2⟩ := y
        rw [hrr] at h
        obtain ⟨hf2, hm2⟩ := ih fs1 (ri + 1) d2 fs2 ev2 hrr
        simp at h
        obtain ⟨h1, h2, h3⟩ := h
        subst_vars
        refine ⟨hf2.trans hf1, ?_⟩
        simpa [moveFree, List.all_append] using And.intro hm1 hm2

/-! ## Claims -/

/-- C4: a condition matches a file iff (its extension list holds the
wildcard, or the lowercased file extension is among the lowercased
extensions) and (its filename_contains list is empty, or some pattern
occurs case-insensitively as a substring of the file name); a wildcard
condition with no filename patterns matches every file, and an empty
extension list without the wildcard never matches. -/
theorem c4_condition_match_iff (f : FileInfo) (c : Condition) :
    (condMatches f c = true ↔
      (("*" ∈ c.extension ∨
          strLower (pySuffix f.name) ∈ c.extension.map strLower) ∧
        (c.filename_contains = [] ∨
          ∃ p ∈ c.filename_contains,
            (strLower p).toList <:+: (strLower f.name).toList))) ∧
    (c.extension = [] → condMatches f c = false) ∧
    ("*" ∈ c.extension → c.filename_contains = [] → condMatches f c = true) := by
  have hiff : condMatches f c = true ↔
      (("*" ∈ c.extension ∨
          strLower (pySuffix f.name) ∈ c.extension.map strLower) ∧
        (c.filename_contains = [] ∨
          ∃ p ∈ c.filename_contains,
            (strLower p).toList <:+: (strLower f.name).toList)) := by
    simp [condMatches, Bool.and_eq_true, Bool.or_eq_true, listInfixB_iff,
      List.isEmpty_iff]
  refine ⟨hiff, ?_, ?_⟩
  · intro he
    rcases hb : condMatches f c with _ | _
    · rfl
    · exact absurd (hiff.mp hb).1 (by simp [he])
  · intro hw hn
    exact hiff.mpr ⟨Or.inl hw, Or.inl hn⟩

/-- C4 witness: the wildcard condition with no filename patterns matches
the plain text file. -/
theorem c4_condition_match_iff_witness : condMatches fTxt cOne = true :=
  (c4_condition_match_iff fTxt cOne).2.2 (by decide) rfl

/-- C5: with a readable modification time, an age within last_week gives
Last_Week, an age above it but within last_month gives Last_Month, and an
age above both gives Older; an unreadable modification time gives Unknown.
With thresholds 7 and 30, ages 3, 10 and 400 give Last_Week, Last_Month
and Older. -/
theorem c5_date_group_buckets :
    (∀ (cfg : Config) (mt : Mtime),
      (mt.daysAgo ≤ effLastWeek cfg →
        get_date_group cfg (some mt) = "Last_Week") ∧
      (effLastWeek cfg < mt.daysAgo → mt.daysAgo ≤ effLastMonth cfg →
        get_date_group cfg (some mt) = "Last_Month") ∧
      (effLastWeek cfg < mt.daysAgo → effLastMonth cfg < mt.daysAgo →
        get_date_group cfg (some mt) = "Older") ∧
      get_date_group cfg none = "Unknown") ∧
    get_date_group cfgT730 (some (mtAge 3)) = "Last_Week" ∧
    get_date_group cfgT730 (some (mtAge 10)) = "Last_Month" ∧
    get_date_group cfgT730 (some (mtAge 400)) = "Older" := by
  refine ⟨fun cfg mt => ⟨?_, ?_, ?_, rfl⟩, by decide, by decide, by decide⟩
  · intro h
    simp [get_date_group, h]
  · intro h1 h2
    simp [get_date_group, h2]
    omega
  · intro h1 h2
    have n1 : ¬ mt.daysAgo ≤ effLastWeek cfg := by omega
    have n2 : ¬ mt.daysAgo ≤ effLastMonth cfg := by omega
    simp [get_date_group, n1, n2]

/-- C5 witness: a file aged 3 days with thresholds 7 and 30 lands in
Last_Week, through the general bucket statement. -/
theorem c5_date_group_buckets_witness :
    get_date_group cfgT730 (some (mtAge 3)) = "Last_Week" :=
  (c5_date_group_buckets.1 cfgT730 (mtAge 3)).1 (by decide)

/-- C6: a non-existing destination is returned unchanged under every
policy; for an existing destination, skip returns none, overwrite returns
the same path, and rename inserts an underscore and the timestamp between
the stem and the suffix of the destination name. -/
theorem c6_resolve_conflict_policies (res : Option String)
    (dir name ts : String) :
    resolve_conflict res false dir name ts = some (dir ++ "/" ++ name) ∧
    resolve_conflict (some "skip") true dir name ts = none ∧
    resolve_conflict (some "overwrite") true dir name ts =
      some (dir ++ "/" ++ name) ∧
    resolve_conflict (some "rename") true dir name ts =
      some (dir ++ "/" ++ pyStem name ++ "_" ++ ts ++ pySuffix name) :=
  ⟨rfl, rfl, rfl, rfl⟩

/-- C8: a directory entry is excluded before rule evaluation exactly when
it is a directory, its name starts with a dot, its name starts with a
tilde-dollar marker, or it cannot be opened for append; an excluded entry
is never classified, whatever the rules, and leaves the filesystem and
the event trace untouched. -/
theorem c8_exclusion_iff (cfg : Config) (ts : String) (dry : Bool) (fs : FS)
    (f : FileInfo) :
    (should_process_file f = false ↔
      (f.isDir = true ∨ pyStartsWith f.name "." = true ∨
        pyStartsWith f.name "~$" = true ∨ f.canOpenAppend = false)) ∧
    (should_process_file f = false →
      process_file cfg ts f dry fs = .ok (false, fs, [])) := by
  constructor
  · cases hd : f.isDir <;> cases h1 : pyStartsWith f.name "." <;>
      cases h2 : pyStartsWith f.name "~$" <;> cases ha : f.canOpenAppend <;>
      simp [should_process_file, hd, h1, h2, ha]
  · intro h
    simp [process_file, h]

/-- C8 witness: a subdirectory entry is excluded and the engine returns
at once without touching anything. -/
theorem c8_exclusion_iff_witness :
    process_file cfgT730 "TS" fSub true fsT = .ok (false, fsT, []) :=
  (c8_exclusion_iff cfgT730 "TS" true fsT fSub).2 (by decide)

/-- C9: an absent conflict_resolution key behaves exactly as rename, and
an unrecognized policy value yields none for any existing destination, so
the resolver never directs a move onto an existing path. -/
theorem c9_conflict_default_and_unknown (e : Bool) (dir name ts : String) :
    resolve_conflict none e dir name ts =
      resolve_conflict (some "rename") e dir name ts ∧
    (∀ v : String, v ≠ "skip" → v ≠ "overwrite" → v ≠ "rename" →
      resolve_conflict (some v) true dir name ts = none) := by
  refine ⟨rfl, ?_⟩
  intro v h1 h2 h3
  simp [resolve_conflict, h1, h2, h3]

/-- C9 witness: with the unrecognized policy value banana and an existing
destination, the resolver returns none. -/
theorem c9_conflict_default_and_unknown_witness :
    resolve_conflict (some "banana") true "t/One" "a.txt" "TS" = none :=
  (c9_conflict_default_and_unknown true "t/One" "a.txt" "TS").2 "banana"
    (by decide) (by decide) (by decide)

/-- C1 counterexample: with two catch-all rules in dry-run mode, the
condition of rule 0 matches and acts, yet condition 0 of rule 1 is still
evaluated afterwards (and acts as well), refuting that a match stops all
further rule evaluation. -/
theorem c1_counterexample :
    condMatches fTxt cOne = true ∧
    (process_file cfgTwo "TS" fTxt true fsT).toOption.map
      (fun x => decide (Event.checked 1 0 ∈ x.2.2)) = some true ∧
    (process_file cfgTwo "TS" fTxt true fsT).toOption.map
      (fun x => decide (Event.dryRunE "t/a.txt" "t/Two/a.txt" ∈ x.2.2)) =
      some true := by
  refine ⟨rfl, rfl, rfl⟩

/-- C1 amended: the first condition of a rule whose action completes
short-circuits the remaining conditions of that same rule, and the result
of the rule is exactly that of this condition; subsequent rules, however,
are still evaluated by the outer loop. -/
theorem c1_first_match_short_circuits_rule (cfg : Config) (ts : String)
    (f : FileInfo) (dry : Bool) (fs : FS) (ri ci : Nat) (c : Condition)
    (rest : List Condition) (fs1 : FS) (ev1 : List Event)
    (h : tryCondition cfg ts f dry fs ri ci c = .ok (true, fs1, ev1)) :
    runConds cfg ts f dry fs ri ci (c :: rest) = .ok (true, fs1, ev1) := by
  simp only [runConds]
  rw [h]

/-- C1 amended witness: with the two catch-all conditions in one list, the
first one acts in dry-run mode and the second is never reached. -/
theorem c1_first_match_short_circuits_rule_witness :
    runConds cfgTwo "TS" fTxt true fsT 0 0 [cOne, cTwo] =
      .ok (true, ⟨["t/One", "t"], ["t/a.txt"]⟩,
        [.checked 0 0, .mkdirE "t/One", .dryRunE "t/a.txt" "t/One/a.txt"]) :=
  c1_first_match_short_circuits_rule cfgTwo "TS" fTxt true fsT 0 0 cOne
    [cTwo] ⟨["t/One", "t"], ["t/a.txt"]⟩
    [.checked 0 0, .mkdirE "t/One", .dryRunE "t/a.txt" "t/One/a.txt"] (by rfl)

/-- C2 counterexample: a dry run over one matching file grows the set of
existing directories from one to three, so dry-run mode does mutate the
filesystem by creating destination directories. -/
theorem c2_counterexample :
    (process_file cfgTwo "TS" fTxt true fsT).toOption.map
      (fun x => x.2.1.dirs) = some ["t/Two", "t/One", "t"] ∧
    fsT.dirs = ["t"] := ⟨rfl, rfl⟩

/-- C2 amended: a dry run never moves a file (the set of existing files
is unchanged) and its trace holds no move and no move error, but
destination directories are still created before the dry-run check. -/
theorem c2_dry_run_moves_nothing (cfg : Config) (ts : String) (f : FileInfo)
    (fs : FS) (b : Bool) (fs' : FS) (ev : List Event)
    (h : process_file cfg ts f true fs = .ok (b, fs', ev)) :
    fs'.files = fs.files ∧ moveFree ev = true := by
  simp only [process_file] at h
  by_cases hp : should_process_file f = false
  · rw [if_pos hp] at h
    simp at h
    obtain ⟨h1, h2, h3⟩ := h
    subst_vars
    exact ⟨rfl, rfl⟩
  · rw [if_neg hp] at h
    exact runRules_dry_invariant cfg ts f cfg.rules fs 0 b fs' ev h

/-- C2 amended witness: the dry run over the two catch-all rules leaves
the file set unchanged and its trace move-free. -/
theorem c2_dry_run_moves_nothing_witness :
    (FS.mk ["t/Two", "t/One", "t"] ["t/a.txt"]).files = fsT.files ∧
    moveFree [Event.checked 0 0, .mkdirE "t/One",
      .dryRunE "t/a.txt" "t/One/a.txt", .checked 1 0, .mkdirE "t/Two",
      .dryRunE "t/a.txt" "t/Two/a.txt"] = true :=
  c2_dry_run_moves_nothing cfgTwo "TS" fTxt fsT true
    ⟨["t/Two", "t/One", "t"], ["t/a.txt"]⟩
    [Event.checked 0 0, .mkdirE "t/One", .dryRunE "t/a.txt" "t/One/a.txt",
      .checked 1 0, .mkdirE "t/Two", .dryRunE "t/a.txt" "t/Two/a.txt"]
    (by rfl)

/-- C3: a file whose stat fails, matched by a condition carrying a
subfolder pattern, makes the whole run abort: organize_files ends in an
error before the second file of the snapshot is ever examined, although
get_date_group itself does fall back to Unknown on the same failed stat.
The claim of isolation is the documented intent; the unguarded stat call
inside create_subfolder_path is the code slip that breaks it. -/
theorem c3_stat_failure_aborts_batch :
    organize_files cfgSub "TS" (some false) fsT [fNoStat, fTxt] =
      .error () ∧
    get_date_group cfgSub none = "Unknown" := ⟨rfl, rfl⟩

/-- C7 counterexample: under the skip policy, with one rule of two
catch-all conditions and the destination of the first already occupied,
the live run moves the file to the destination of the second condition
and reports it processed, refuting that the file stays in place and
counts as skipped. -/
theorem c7_counterexample :
    (process_file cfgSkip "TS" fTxt false fsSkipPre).toOption.map
      (fun x => (x.1, decide ("t/Two/a.txt" ∈ x.2.1.files),
        decide ("t/a.txt" ∈ x.2.1.files))) = some (true, true, false) := by
  rfl

/-- C7 amended: under the skip policy, a matched condition whose resolved
destination already exists performs no move at all — the file set is
untouched and only the destination directory creation happens — and the
loop continues: later conditions and rules may still act on the file. -/
theorem c7_skip_keeps_file_and_continues (cfg : Config) (ts : String)
    (f : FileInfo) (dry : Bool) (fs : FS) (ri ci : Nat) (c : Condition)
    (fd : String)
    (hpol : cfg.conflict_resolution = some "skip")
    (hm : condMatches f c = true)
    (hfd : fullDestOf cfg f c = .ok fd)
    (hex : fsExists (mkdirFS fs fd) (fd ++ "/" ++ f.name) = true) :
    tryCondition cfg ts f dry fs ri ci c =
      .ok (false, mkdirFS fs fd, [.checked ri ci, .mkdirE fd]) ∧
    (mkdirFS fs fd).files = fs.files := by
  refine ⟨?_, rfl⟩
  simp only [tryCondition]
  rw [if_neg (by simp [hm]), hfd]
  simp only []
  rw [hpol, hex]
  rfl

/-- C7 amended witness: the first catch-all condition of the skip-policy
config finds its destination occupied, leaves the file untouched and
hands control to the next condition. -/
theorem c7_skip_keeps_file_and_continues_witness :
    tryCondition cfgSkip "TS" fTxt false fsSkipPre 0 0 cOne =
      .ok (false, mkdirFS fsSkipPre "t/One",
        [.checked 0 0, .mkdirE "t/One"]) ∧
    (mkdirFS fsSkipPre "t/One").files = fsSkipPre.files :=
  c7_skip_keeps_file_and_continues cfgSkip "TS" fTxt false fsSkipPre 0 0
    cOne "t/One" rfl rfl rfl rfl

/-- Every completed pass counts each snapshot entry exactly once. -/
theorem runFiles_partition (cfg : Config) (ts : String) (dry : Bool) :
    ∀ (entries : List FileInfo) (fs : FS) (p s : Nat) (fs' : FS)
      (ev : List Event),
      runFiles cfg ts dry fs entries = .ok (p, s, fs', ev) →
      p + s = entries.length := by
  intro entries
  induction entries with
  | nil =>
    intro fs p s fs' ev h
    simp only [runFiles, Except.ok.injEq, Prod.mk.injEq] at h
    obtain ⟨h1, h2, -, -⟩ := h
    subst_vars
    rfl
  | cons f rest ih =>
    intro fs p s fs' ev h
    simp only [runFiles] at h
    cases hpf : process_file cfg ts f dry fs with
    | error e => rw [hpf] at h; simp at h
    | ok x =>
      obtain ⟨d, fs1, ev1⟩ := x
      rw [hpf] at h
      simp only [] at h
      cases hrf : runFiles cfg ts dry fs1 rest with
      | error e => rw [hrf] at h; simp at h
      | ok y =>
        obtain ⟨p2, s2, fs2, ev2⟩ := y
        rw [hrf] at h
        have hsum := ih fs1 p2 s2 fs2 ev2 hrf
        simp only [Except.ok.injEq, Prod.mk.injEq] at h
        obtain ⟨hp, hs, -, -⟩ := h
        simp only [List.length_cons]
        cases d <;> simp at hp hs <;> omega

/-- C10: whenever organize_files completes and returns summary counters,
every entry of the directory snapshot is counted in exactly one of the
two, so processed plus skipped equals the snapshot length; moreover an
excluded entry (for instance a subdirectory) raises the skipped counter. -/
theorem c10_summary_counts_partition_snapshot :
    (∀ (cfg : Config) (ts : String) (dryArg : Option Bool) (fs : FS)
        (entries : List FileInfo) (p s : Nat) (fs' : FS) (ev : List Event),
      organize_files cfg ts dryArg fs entries = .ok (some (p, s, fs', ev)) →
      p + s = entries.length) ∧
    (∀ (cfg : Config) (ts : String) (dry : Bool) (fs : FS) (f : FileInfo)
        (rest : List FileInfo) (p s : Nat) (fs' : FS) (ev : List Event),
      should_process_file f = false →
      runFiles cfg ts dry fs (f :: rest) = .ok (p, s, fs', ev) →
      1 ≤ s) := by
  constructor
  · intro cfg ts dryArg fs entries p s fs' ev h
    simp only [organize_files] at h
    by_cases ht : fsExists fs cfg.target_directory = false
    · rw [if_pos ht] at h
      simp at h
    · rw [if_neg ht] at h
      cases hrf : runFiles cfg ts (dryArg.getD (cfg.dry_run.getD false))
          fs entries with
      | error e => rw [hrf] at h; simp at h
      | ok y =>
        rw [hrf] at h
        simp only [] at h
        simp only [Except.ok.injEq, Option.some.injEq] at h
        subst h
        exact runFiles_partition cfg ts (dryArg.getD (cfg.dry_run.getD false))
          entries fs p s fs' ev hrf
  · intro cfg ts dry fs f rest p s fs' ev hexcl h
    simp only [runFiles, process_file, if_pos hexcl] at h
    cases hrf : runFiles cfg ts dry fs rest with
    | error e => rw [hrf] at h; simp at h
    | ok y =>
      obtain ⟨p2, s2, fs2, ev2⟩ := y
      rw [hrf] at h
      simp only [Except.ok.injEq, Prod.mk.injEq] at h
      obtain ⟨-, hs, -, -⟩ := h
      simp at hs
      omega

/-- C10 witness: a dry pass over one matching file and one subdirectory
reports one processed and one skipped, partitioning the two entries. -/
theorem c10_summary_counts_partition_snapshot_witness :
    (1 : Nat) + 1 = ([fTxt, fSub] : List FileInfo).length :=
  c10_summary_counts_partition_snapshot.1 cfgTwo "TS" (some true) fsT
    [fTxt, fSub] 1 1 ⟨["t/Two", "t/One", "t"], ["t/a.txt"]⟩
    [Event.checked 0 0, .mkdirE "t/One", .dryRunE "t/a.txt" "t/One/a.txt",
      .checked 1 0, .mkdirE "t/Two", .dryRunE "t/a.txt" "t/Two/a.txt"]
    (by rfl)

end FileOrganizer
